import Mathlib

/-!
Verification development for the batch image-transformation core
(`src-tauri/src/lib.rs` of the image_optimizer repository).

Modelling conventions (shallow embedding):
* Machine floats (`f64`) are modelled exactly, by the type `F64` below:
  a rational number, or one of the IEEE special values `inf`, `ninf`, `nan`.
  Arithmetic on finite values is exact rational arithmetic; division by
  zero, multiplication with infinities, Rust's NaN-ignoring `f64::min`
  and the saturating `as u32` cast follow the IEEE / Rust rules.
  Negative zero is identified with zero.
* External capabilities (filesystem, the image / imagequant / lodepng /
  oxipng / webp crates, path decomposition and float formatting) are an
  explicit environment record `Env`; each fallible capability returns
  `Except String _`, mirroring the `Result` values the source matches on.
* Bytes (`Vec<u8>`) are `List Nat`; decoded images, imagequant handles
  are opaque `Nat` handles interpreted only through `Env`.
* `u8`/`u32`/`u64`/`usize` values are `Nat`; the `as u8` truncation is
  an explicit `% 256` where the source performs such a cast.
-/

/-- Exact model of an `f64` value: finite rational or special value. -/
inductive F64 where
  | nan : F64
  | inf : F64
  | ninf : F64
  | fin : ℚ → F64
deriving DecidableEq, Repr

/-- IEEE multiplication on the `F64` model (`0 * inf = nan`). -/
def F64.mul : F64 → F64 → F64
  | nan, _ => nan
  | _, nan => nan
  | inf, inf => inf
  | inf, ninf => ninf
  | ninf, inf => ninf
  | ninf, ninf => inf
  | inf, fin q => if q = 0 then nan else if 0 < q then inf else ninf
  | fin q, inf => if q = 0 then nan else if 0 < q then inf else ninf
  | ninf, fin q => if q = 0 then nan else if 0 < q then ninf else inf
  | fin q, ninf => if q = 0 then nan else if 0 < q then ninf else inf
  | fin a, fin b => fin (a * b)

/-- IEEE division on the `F64` model (`x/0` is signed infinity, `0/0 = nan`;
negative zero is identified with zero). -/
def F64.div : F64 → F64 → F64
  | nan, _ => nan
  | _, nan => nan
  | inf, inf => nan
  | inf, ninf => nan
  | ninf, inf => nan
  | ninf, ninf => nan
  | inf, fin q => if 0 ≤ q then inf else ninf
  | ninf, fin q => if 0 ≤ q then ninf else inf
  | fin _, inf => fin 0
  | fin _, ninf => fin 0
  | fin a, fin b =>
    if b = 0 then (if a = 0 then nan else if 0 < a then inf else ninf)
    else fin (a / b)

/-- IEEE subtraction on the `F64` model. -/
def F64.sub : F64 → F64 → F64
  | nan, _ => nan
  | _, nan => nan
  | inf, inf => nan
  | inf, _ => inf
  | ninf, ninf => nan
  | ninf, _ => ninf
  | fin _, inf => ninf
  | fin _, ninf => inf
  | fin a, fin b => fin (a - b)

/-- Rust's `f64::min`: if one argument is NaN the other is returned. -/
def F64.rmin : F64 → F64 → F64
  | nan, x => x
  | x, nan => x
  | ninf, _ => ninf
  | _, ninf => ninf
  | fin q, inf => fin q
  | inf, fin q => fin q
  | inf, inf => inf
  | fin a, fin b => if a ≤ b then fin a else fin b

/-- Rust's `f64::round`: round half away from zero, to an integer. -/
def roundAway (q : ℚ) : ℤ :=
  if q < 0 then -(Int.floor (-q + 1/2)) else Int.floor (q + 1/2)

/-- Largest `u32` value. -/
def U32MAX : ℕ := 4294967295

/-- Rust's `.round() as u32` on an `f64`: round half away from zero then
saturating cast (`nan ↦ 0`, `inf ↦ u32::MAX`, negatives to `0`). -/
def roundToU32 : F64 → ℕ
  | F64.nan => 0
  | F64.inf => U32MAX
  | F64.ninf => 0
  | F64.fin q =>
    let r := roundAway q
    if r < 0 then 0 else min r.toNat U32MAX

/-- The exact `as f64` cast of an unsigned integer (u32 values are exactly
representable in `f64`). -/
def qf (n : ℕ) : F64 := F64.fin (n : ℚ)

/-- Embedding of `calculate_new_dimensions` (src-tauri/src/lib.rs:113-150):
new output dimensions from original dimensions, optional targets and the
aspect-ratio flag. -/
def calculate_new_dimensions (orig_w orig_h : ℕ) (target_w target_h : Option ℕ)
    (maintain_aspect : Bool) : ℕ × ℕ :=
  match target_w, target_h, maintain_aspect with
  | some w, some h, false => (w, h)
  | some w, some h, true =>
    let ratio_w := F64.div (qf w) (qf orig_w)
    let ratio_h := F64.div (qf h) (qf orig_h)
    let r := F64.rmin ratio_w ratio_h
    (roundToU32 (F64.mul (qf orig_w) r), roundToU32 (F64.mul (qf orig_h) r))
  | some w, none, _ =>
    let r := F64.div (qf w) (qf orig_w)
    (w, roundToU32 (F64.mul (qf orig_h) r))
  | none, some h, _ =>
    let r := F64.div (qf h) (qf orig_h)
    (roundToU32 (F64.mul (qf orig_w) r), h)
  | none, none, _ => (orig_w, orig_h)

/-- Image metadata returned by `get_image_info` (lib.rs:20-27). -/
structure ImageInfo where
  name : String
  width : ℕ
  height : ℕ
  size : ℕ
  original_path : String
deriving DecidableEq, Repr

/-- Options of `resize_images` (lib.rs:30-35). -/
structure ResizeOptions where
  width : Option ℕ
  height : Option ℕ
  maintain_aspect_ratio : Bool
deriving DecidableEq, Repr

/-- Options of `quantize_images` (lib.rs:38-41); `quality` is a `u8`. -/
structure QuantOptions where
  quality : ℕ
deriving DecidableEq, Repr

/-- Output container format (lib.rs:44-49). -/
inductive OutputFormat where
  | png : OutputFormat
  | webp : OutputFormat
deriving DecidableEq, Repr

/-- Options of the batch pipeline (lib.rs:52-68). -/
structure ProcessOptions where
  resize_enabled : Bool
  width : Option ℕ
  height : Option ℕ
  maintain_aspect_ratio : Bool
  quantize_enabled : Bool
  quality : ℕ
  optimize_enabled : Bool
  output_dir : Option String
  output_format : OutputFormat
deriving DecidableEq, Repr

/-- Per-item processing result (lib.rs:71-78). -/
structure ProcessResult where
  success : Bool
  original_size : ℕ
  result_size : ℕ
  output_path : String
  message : String
deriving DecidableEq, Repr

/-- Progress event payload (lib.rs:81-87). -/
structure ProgressPayload where
  completed : ℕ
  total : ℕ
  current_file : Option String
  result : Option ProcessResult
deriving DecidableEq, Repr

/-- One message pushed to the reporting sink: a progress event
(`process-progress`) or the terminal signal (`process-complete`). -/
inductive Event where
  | progress : ProgressPayload → Event
  | complete : Event
deriving DecidableEq, Repr

/-- An RGBA color / pixel (imagequant's `RGBA`, lodepng's `RGBA`). -/
structure RGBA where
  r : ℕ
  g : ℕ
  b : ℕ
  a : ℕ
deriving DecidableEq, Repr

/-- Resampling filter passed to `resize_exact` (only Lanczos3 is used). -/
inductive FilterType where
  | lanczos3 : FilterType
deriving DecidableEq, Repr

/-- The oxipng options record built at lib.rs:206-210 and lib.rs:794-798. -/
structure OxiOptions where
  preset : ℕ
  deflaterCompression : ℕ
  stripSafe : Bool
  optimizeAlpha : Bool
  fastEvaluation : Bool
deriving DecidableEq, Repr

/-- The concrete oxipng configuration used by the source (preset 4,
libdeflater compression 12, safe strip, alpha optimization, fast
evaluation). -/
def oxiOptions : OxiOptions :=
  { preset := 4, deflaterCompression := 12, stripSafe := true,
    optimizeAlpha := true, fastEvaluation := true }

/-- State of a lodepng encoder: the two palettes (`info_raw` and
`info_png.color`) plus the colortype/bitdepth fields the source sets. -/
structure LodeEncoder where
  rawPalette : List RGBA
  pngPalette : List RGBA
  rawPaletteMode : Bool
  rawBitdepth : ℕ
  pngPaletteMode : Bool
  pngBitdepth : ℕ
deriving DecidableEq, Repr

/-- `lodepng::Encoder::new()`: empty palettes, true-color defaults. -/
def lodeInit : LodeEncoder :=
  { rawPalette := [], pngPalette := [], rawPaletteMode := false,
    rawBitdepth := 8, pngPaletteMode := false, pngBitdepth := 8 }

/-- Sets both colortypes to PALETTE with bitdepth 8 (lib.rs:543-546 and
lib.rs:757-760). -/
def setIndexed8 (st : LodeEncoder) : LodeEncoder :=
  { st with rawPaletteMode := true, rawBitdepth := 8,
            pngPaletteMode := true, pngBitdepth := 8 }

/-- Opaque handle of a decoded `DynamicImage`. -/
abbrev Image : Type := ℕ

/-- Opaque handle of an 8-bit RGBA buffer (`RgbaImage`). -/
abbrev RgbaImage : Type := ℕ

/-- Opaque handle of an imagequant image. -/
abbrev LiqImage : Type := ℕ

/-- Opaque handle of an imagequant quantization result. -/
abbrev QuantRes : Type := ℕ

/-- The environment of external capabilities the core orchestrates:
filesystem, path decomposition, the image / imagequant / lodepng /
oxipng / webp crates, and float formatting. Fallible capabilities
return `Except String _` (the `String` is the formatted error the
source interpolates into messages). -/
structure Env where
  pathExists : String → Bool
  metadataLen : String → Option ℕ
  createDirAll : String → Except String Unit
  writeFile : String → List ℕ → Except String Unit
  fileStem : String → Option String
  fileName : String → Option String
  parent : String → Option String
  extension : String → Option String
  openImage : String → Except String Image
  dimensions : Image → ℕ × ℕ
  resizeExact : Image → ℕ → ℕ → FilterType → Image
  toRgba8 : Image → RgbaImage
  rgbaDimensions : RgbaImage → ℕ × ℕ
  pixels : RgbaImage → List RGBA
  asRaw : RgbaImage → List ℕ
  writeToPng : Image → Except String (List ℕ)
  saveImage : Image → String → Except String Unit
  setQuality : ℕ → ℕ → Except String Unit
  newImage : List RGBA → ℕ → ℕ → ℚ → Except String LiqImage
  quantize : LiqImage → Except String QuantRes
  setDithering : QuantRes → ℚ → QuantRes
  remapped : QuantRes → LiqImage → Except String (List RGBA × List ℕ)
  paletteAdd : List RGBA → RGBA → Except String (List RGBA)
  lodeEncode : LodeEncoder → List ℕ → ℕ → ℕ → Except String (List ℕ)
  oxipngFile : String → String → OxiOptions → Except String (ℕ × ℕ)
  oxipngMem : List ℕ → OxiOptions → Except String (List ℕ)
  webpLossless : List ℕ → ℕ → ℕ → List ℕ
  webpLossy : List ℕ → ℕ → ℕ → ℕ → List ℕ
  fmtFloat : F64 → String

/-- `PathBuf::join` modelled on plain strings. -/
def joinPath (dir name : String) : String := dir ++ ("/") ++ name

/-- ASCII lower-casing of a string (for `eq_ignore_ascii_case`). -/
def asciiLower (s : String) : String := String.mk (s.data.map Char.toLower)

/-- Embedding of `is_png` (lib.rs:94-99): case-insensitive extension test. -/
def is_png (env : Env) (path : String) : Bool :=
  ((env.extension path).map (fun ext => asciiLower ext = ("png") : String → Bool)).getD false

/-- Embedding of `convert_to_png` (lib.rs:102-110): decode then re-encode
as PNG bytes. -/
def convert_to_png (env : Env) (path : String) : Except String (List ℕ) :=
  match env.openImage path with
  | Except.error e => Except.error (("画像を開けません: ") ++ e)
  | Except.ok img =>
    match env.writeToPng img with
    | Except.error e => Except.error (("PNG への変換に失敗: ") ++ e)
    | Except.ok d => Except.ok d

/-- The `(min, max)` quality pair passed to `imagequant::Attributes::set_quality`
(lib.rs:440-442 and lib.rs:686-689): `(quality as u32).saturating_sub(10).max(0)`
and `quality as u32`, each cast back `as u8`. -/
def setQualityArgs (quality : ℕ) : ℕ × ℕ :=
  ((max (quality - 10) 0) % 256, quality % 256)

/-- The byte-reduction percentage of a result, guarded against a zero
original size (lib.rs:856-860, and inline at lib.rs:281-285, 585-589):
`(1.0 - result as f64 / original as f64) * 100.0`, or `0.0` when the
original size is zero. -/
def reductionF (original_size result_size : ℕ) : F64 :=
  if 0 < original_size then
    F64.mul (F64.sub (F64.fin 1) (F64.div (qf result_size) (qf original_size))) (F64.fin 100)
  else F64.fin 0

/-- The success-message suffix `"{orig} → {result} bytes ({reduction}% 削減)"`. -/
def sizesMsg (env : Env) (original_size result_size : ℕ) : String :=
  toString original_size ++ (" → ") ++ toString result_size ++ (" bytes (") ++
    env.fmtFloat (reductionF original_size result_size) ++ ("% 削減)")

/-- A failure `ProcessResult` carrying `original_size` and a tagged
message — the shape of every early `return ProcessResult {...}` of the
source's failure branches. -/
def failRes (original_size : ℕ) (tag e : String) : ProcessResult :=
  ⟨false, original_size, 0, "", tag ++ e⟩

/-- The source's `match result { Err(e) => return <failure>, Ok(a) => ... }`
early-return pattern, for pipeline stages that continue with `Except`. -/
def orFail {α β : Type} (x : Except String α) (mk : String → ProcessResult)
    (k : α → Except ProcessResult β) : Except ProcessResult β :=
  match x with
  | Except.error e => Except.error (mk e)
  | Except.ok a => k a

/-- The source's `match result { Err(e) => { results.push(<failure>); continue }, Ok(a) => ... }`
pattern of the batch loops: on error push one failure result for the item. -/
def orPush {α : Type} (x : Except String α) (mk : String → ProcessResult)
    (k : α → List ProcessResult) : List ProcessResult :=
  match x with
  | Except.error e => [mk e]
  | Except.ok a => k a

/-- The palette-filling loop of the single-item pipeline (lib.rs:742-755):
both `palette_add` results are discarded (`let _ = ...`), so a failed add
leaves the corresponding palette unchanged. -/
def paletteLoopIgnore (env : Env) (st : LodeEncoder) : List RGBA → LodeEncoder
  | [] => st
  | c :: rest =>
    let st1 := match env.paletteAdd st.rawPalette c with
      | Except.ok l => { st with rawPalette := l }
      | Except.error _ => st
    let st2 := match env.paletteAdd st1.pngPalette c with
      | Except.ok l => { st1 with pngPalette := l }
      | Except.error _ => st1
    paletteLoopIgnore env st2 rest

/-- The PNG data production of the single-item pipeline (lib.rs:676-790):
quantize to a palette-mode PNG when `quantize_enabled`, otherwise encode
the image directly as PNG. Failures are the `ProcessResult` the source
returns early. -/
def pngData (env : Env) (o : ProcessOptions) (original_size : ℕ) (img : Image)
    (steps0 : List String) : Except ProcessResult (List ℕ × List String) :=
  if o.quantize_enabled then
    let rgba := env.toRgba8 img
    let wh := env.rgbaDimensions rgba
    let pixels := env.pixels rgba
    orFail (env.setQuality (setQualityArgs o.quality).1 (setQualityArgs o.quality).2)
        (failRes original_size ("クオリティ設定エラー: ")) fun _ =>
      orFail (env.newImage pixels wh.1 wh.2 0)
          (failRes original_size ("imagequant エラー: ")) fun liq =>
        orFail (env.quantize liq) (failRes original_size ("量子化エラー: ")) fun q0 =>
          orFail (env.remapped (env.setDithering q0 1) liq)
              (failRes original_size ("リマップエラー: ")) fun pr =>
            orFail (env.lodeEncode (setIndexed8 (paletteLoopIgnore env lodeInit pr.1))
                  pr.2 wh.1 wh.2)
                (failRes original_size ("PNG エンコードエラー: ")) fun data =>
              Except.ok (data, steps0 ++ [("pngquant: クオリティ ") ++ toString o.quality])
  else
    orFail (env.writeToPng img) (failRes original_size ("PNG 変換エラー: ")) fun data =>
      Except.ok (data, steps0)

/-- The output-format branch of the single-item pipeline (lib.rs:673-840):
produces the final bytes, the file extension and the accumulated step
trace, or the failure `ProcessResult` the source returns early. -/
def formatBranch (env : Env) (o : ProcessOptions) (original_size : ℕ) (img : Image)
    (steps0 : List String) : Except ProcessResult (List ℕ × String × List String) :=
  match o.output_format with
  | OutputFormat.png =>
    match pngData env o original_size img steps0 with
    | Except.error r => Except.error r
    | Except.ok ds =>
      if o.optimize_enabled then
        orFail (env.oxipngMem ds.1 oxiOptions) (failRes original_size ("oxipng エラー: "))
          fun optimized => Except.ok (optimized, ("png"), ds.2 ++ [("oxipng: 最適化")])
      else Except.ok (ds.1, ("png"), ds.2)
  | OutputFormat.webp =>
    let rgba := env.toRgba8 img
    let wh := env.rgbaDimensions rgba
    if 100 ≤ o.quality then
      Except.ok (env.webpLossless (env.asRaw rgba) wh.1 wh.2, ("webp"),
        steps0 ++ [("WebP: ロスレス")])
    else
      Except.ok (env.webpLossy (env.asRaw rgba) wh.1 wh.2 o.quality, ("webp"),
        steps0 ++ [("WebP: クオリティ ") ++ toString o.quality])

/-- The optional resize stage of the single-item pipeline (lib.rs:656-670):
when enabled and at least one target is given, resample to the dimensions
of `calculate_new_dimensions` with the Lanczos3 filter and record a step
label; otherwise pass the image through. -/
def resizeStage (env : Env) (o : ProcessOptions) (img0 : Image) : Image × List String :=
  let dims := env.dimensions img0
  if o.resize_enabled && (o.width.isSome || o.height.isSome) then
    let nd := calculate_new_dimensions dims.1 dims.2 o.width o.height o.maintain_aspect_ratio
    (env.resizeExact img0 nd.1 nd.2 FilterType.lanczos3,
      [("リサイズ: ") ++ toString dims.1 ++ ("x") ++ toString dims.2 ++ (" → ") ++
        toString nd.1 ++ ("x") ++ toString nd.2])
  else (img0, [])

/-- The final write and result assembly of the single-item pipeline
(lib.rs:842-875), applied to the outcome of the format branch. -/
def afterFormat (env : Env) (original_size : ℕ) (stem out_parent : String)
    (fb : Except ProcessResult (List ℕ × String × List String)) : ProcessResult :=
  match fb with
  | Except.error r => r
  | Except.ok out =>
    let output_path := joinPath out_parent (stem ++ ("_processed.") ++ out.2.1)
    match env.writeFile output_path out.1 with
    | Except.error e =>
      ⟨false, original_size, 0, "", ("ファイル書き込みエラー: ") ++ e⟩
    | Except.ok _ =>
      ⟨true, original_size, out.1.length, output_path,
        String.intercalate (" → ") out.2.2 ++ (" | ") ++
          sizesMsg env original_size out.1.length⟩

/-- The single-item pipeline after output-directory resolution
(lib.rs:639-875): decode, optional resize, format branch, write, and
final result assembly. -/
def afterDir (env : Env) (path_str : String) (o : ProcessOptions)
    (original_size : ℕ) (stem out_parent : String) : ProcessResult :=
  match env.openImage path_str with
  | Except.error e =>
    ⟨false, original_size, 0, "", path_str ++ (": 画像を開けません - ") ++ e⟩
  | Except.ok img0 =>
    afterFormat env original_size stem out_parent
      (formatBranch env o original_size (resizeStage env o img0).1 (resizeStage env o img0).2)

/-- Embedding of `process_single_image` (lib.rs:598-875): existence check,
output-directory resolution, then `afterDir`. -/
def process_single_image (env : Env) (path_str : String) (o : ProcessOptions) :
    ProcessResult :=
  if env.pathExists path_str = false then
    ⟨false, 0, 0, "", path_str ++ (": ファイルが存在しません")⟩
  else
    let original_size := (env.metadataLen path_str).getD 0
    let stem := (env.fileStem path_str).getD ("output")
    match o.output_dir with
    | some out_dir =>
      if env.pathExists out_dir then afterDir env path_str o original_size stem out_dir
      else
        match env.createDirAll out_dir with
        | Except.error e =>
          ⟨false, original_size, 0, "", ("出力ディレクトリ作成エラー: ") ++ e⟩
        | Except.ok _ => afterDir env path_str o original_size stem out_dir
    | none => afterDir env path_str o original_size stem ((env.parent path_str).getD ("."))

/-- The `info_png` half of one palette-loop iteration of `quantize_images`
(lib.rs:526-540). -/
def paletteStepPng (env : Env) (original_size : ℕ) (st1 : LodeEncoder) (c : RGBA) :
    LodeEncoder × Option ProcessResult :=
  match env.paletteAdd st1.pngPalette c with
  | Except.error e => (st1, some (failRes original_size ("パレット追加エラー: ") e))
  | Except.ok png' => ({ st1 with pngPalette := png' }, none)

/-- One iteration of the palette loop of `quantize_images` (lib.rs:510-541):
try `palette_add` on `info_raw`, on error push a failure and `continue`
(skipping the `info_png` add for this color), otherwise try `palette_add`
on `info_png.color`, on error push a failure and `continue`. A failed add
leaves the corresponding palette unchanged. -/
def paletteStep (env : Env) (original_size : ℕ) (st : LodeEncoder) (c : RGBA) :
    LodeEncoder × Option ProcessResult :=
  match env.paletteAdd st.rawPalette c with
  | Except.error e => (st, some (failRes original_size ("パレット追加エラー: ") e))
  | Except.ok raw' => paletteStepPng env original_size { st with rawPalette := raw' } c

/-- The palette-filling loop of `quantize_images` (lib.rs:510-541): a failed
`palette_add` pushes a failure `ProcessResult` and `continue`s — the
`continue` binds to this inner `for color in &palette` loop, so the item
keeps being processed. Returns the final encoder state and the pushed
results, in push order. -/
def paletteLoopQ (env : Env) (original_size : ℕ) (st : LodeEncoder) :
    List RGBA → LodeEncoder × List ProcessResult
  | [] => (st, [])
  | c :: rest =>
    let sp := paletteStep env original_size st c
    let k := paletteLoopQ env original_size sp.1 rest
    (k.1, sp.2.toList ++ k.2)

/-- The tail of `quantize_images`' per-item processing after a successful
remap (lib.rs:498-592): output-path assembly, the palette loop of
`paletteLoopQ` (whose pushed failures precede whatever is pushed next),
palette-mode encoding, write, and the final result push. -/
def quantizeTail (env : Env) (o : QuantOptions) (p : String) (original_size : ℕ)
    (wh : ℕ × ℕ) (pr : List RGBA × List ℕ) : List ProcessResult :=
  let outP := joinPath ((env.parent p).getD ("."))
    (((env.fileStem p).getD ("output")) ++ ("_quantized.png"))
  let le := paletteLoopQ env original_size lodeInit pr.1
  le.2 ++
    orPush (env.lodeEncode (setIndexed8 le.1) pr.2 wh.1 wh.2)
        (failRes original_size ("PNG エンコードエラー: ")) fun png_data =>
      orPush (env.writeFile outP png_data)
          (failRes original_size ("ファイル書き込みエラー: ")) fun _ =>
        [⟨true, original_size, png_data.length, outP,
          ("クオリティ ") ++ toString o.quality ++ (" で圧縮: ") ++
            sizesMsg env original_size png_data.length⟩]

/-- The `ProcessResult`s `quantize_images` pushes for one input path
(lib.rs:398-592). Because of the inner-loop `continue` modelled by
`paletteLoopQ`, this is a list: a single path can push several results. -/
def quantizeOne (env : Env) (o : QuantOptions) (p : String) : List ProcessResult :=
  if env.pathExists p = false then
    [⟨false, 0, 0, "", p ++ (": ファイルが存在しません")⟩]
  else
    orPush (env.openImage p) (failRes 0 ("画像読み込みエラー: ")) fun img =>
      let rgba := env.toRgba8 img
      let original_size := (env.metadataLen p).getD 0
      let wh := env.rgbaDimensions rgba
      let pixels := env.pixels rgba
      orPush (env.setQuality (setQualityArgs o.quality).1 (setQualityArgs o.quality).2)
          (failRes original_size ("クオリティ設定エラー: ")) fun _ =>
        orPush (env.newImage pixels wh.1 wh.2 0)
            (failRes original_size ("画像作成エラー: ")) fun liq =>
          orPush (env.quantize liq) (failRes original_size ("量子化エラー: ")) fun q0 =>
            orPush (env.remapped (env.setDithering q0 1) liq)
                (failRes original_size ("リマップエラー: ")) fun pr =>
              quantizeTail env o p original_size wh pr

/-- The loop body of `quantize_images` over the whole path list. -/
def quantizeImagesGo (env : Env) (o : QuantOptions) : List String → List ProcessResult
  | [] => []
  | p :: rest => quantizeOne env o p ++ quantizeImagesGo env o rest

/-- Embedding of the `quantize_images` command (lib.rs:391-595): always
`Ok` of the accumulated results. -/
def quantize_images (env : Env) (paths : List String) (o : QuantOptions) :
    Except String (List ProcessResult) :=
  Except.ok (quantizeImagesGo env o paths)

/-- Result assembly of `optimize_images` from the oxipng outcome
(lib.rs:267-298). -/
def finishOx (env : Env) (p : String) (original_size : ℕ) (outP : String) :
    Except String (ℕ × ℕ) → ProcessResult
  | Except.ok pair =>
    let result_size := (env.metadataLen outP).getD pair.2
    ⟨true, original_size, result_size, outP, sizesMsg env original_size result_size⟩
  | Except.error e =>
    ⟨false, original_size, 0, "", p ++ (": 最適化に失敗しました - ") ++ e⟩

/-- The `ProcessResult` `optimize_images` pushes for one input path
(lib.rs:214-299): oxipng on the file directly when it is a PNG, otherwise
convert to PNG in memory, optimize and write. -/
def optimizeOne (env : Env) (p : String) : ProcessResult :=
  if env.pathExists p = false then
    ⟨false, 0, 0, "", p ++ (": ファイルが存在しません")⟩
  else
    let original_size := (env.metadataLen p).getD 0
    let outP := joinPath ((env.parent p).getD ("."))
      (((env.fileStem p).getD ("output")) ++ ("_optimized.png"))
    if is_png env p then finishOx env p original_size outP (env.oxipngFile p outP oxiOptions)
    else
      match convert_to_png env p with
      | Except.error e => ⟨false, original_size, 0, "", p ++ (": ") ++ e⟩
      | Except.ok png_data =>
        finishOx env p original_size outP
          (match env.oxipngMem png_data oxiOptions with
           | Except.error e => Except.error e
           | Except.ok optimized =>
             match env.writeFile outP optimized with
             | Except.error e => Except.error e
             | Except.ok _ => Except.ok (png_data.length, optimized.length))

/-- The loop body of `optimize_images` over the whole path list. -/
def optimizeImagesGo (env : Env) : List String → List ProcessResult
  | [] => []
  | p :: rest => optimizeOne env p :: optimizeImagesGo env rest

/-- Embedding of the `optimize_images` command (lib.rs:205-302): always
`Ok` of the accumulated results. -/
def optimize_images (env : Env) (paths : List String) :
    Except String (List ProcessResult) :=
  Except.ok (optimizeImagesGo env paths)

/-- The `ProcessResult` `resize_images` pushes for one input path
(lib.rs:309-385). -/
def resizeAfterOpen (env : Env) (o : ResizeOptions) (p : String) (img : Image) :
    ProcessResult :=
  let original_size := (env.metadataLen p).getD 0
  let dims := env.dimensions img
  let nd := calculate_new_dimensions dims.1 dims.2 o.width o.height o.maintain_aspect_ratio
  let resized := env.resizeExact img nd.1 nd.2 FilterType.lanczos3
  let outP := joinPath ((env.parent p).getD ("."))
    (((env.fileStem p).getD ("output")) ++ ("_resized.png"))
  match env.saveImage resized outP with
  | Except.ok _ =>
    ⟨true, original_size, (env.metadataLen outP).getD 0, outP,
      toString dims.1 ++ ("x") ++ toString dims.2 ++ (" → ") ++
        toString nd.1 ++ ("x") ++ toString nd.2 ++ (" にリサイズしました")⟩
  | Except.error e => ⟨false, original_size, 0, "", ("保存エラー: ") ++ e⟩

def resizeOne (env : Env) (o : ResizeOptions) (p : String) : ProcessResult :=
  if env.pathExists p = false then
    ⟨false, 0, 0, "", p ++ (": ファイルが存在しません")⟩
  else
    match env.openImage p with
    | Except.error e => ⟨false, 0, 0, "", p ++ (": 画像を開けません - ") ++ e⟩
    | Except.ok img => resizeAfterOpen env o p img

/-- The loop body of `resize_images` over the whole path list. -/
def resizeImagesGo (env : Env) (o : ResizeOptions) : List String → List ProcessResult
  | [] => []
  | p :: rest => resizeOne env o p :: resizeImagesGo env o rest

/-- Embedding of the `resize_images` command (lib.rs:306-388): always `Ok`
of the accumulated results. -/
def resize_images (env : Env) (paths : List String) (o : ResizeOptions) :
    Except String (List ProcessResult) :=
  Except.ok (resizeImagesGo env o paths)

/-- The loop body of `get_image_info` (lib.rs:166-198): missing or
unreadable files are silently skipped. -/
def getImageInfoGo (env : Env) : List String → List ImageInfo
  | [] => []
  | p :: rest =>
    if env.pathExists p = false then getImageInfoGo env rest
    else
      match env.openImage p with
      | Except.error _ => getImageInfoGo env rest
      | Except.ok img =>
        let dims := env.dimensions img
        ⟨(env.fileName p).getD ("unknown"), dims.1, dims.2,
          (env.metadataLen p).getD 0, p⟩ :: getImageInfoGo env rest

/-- Embedding of the `get_image_info` command (lib.rs:163-201): always
`Ok` of the collected infos. -/
def get_image_info (env : Env) (paths : List String) : Except String (List ImageInfo) :=
  Except.ok (getImageInfoGo env paths)

/-- The progress payloads of the spawned batch in increment order
(lib.rs:894-909): the items finish in some nondeterministic completion
order; the i-th item to reach the shared counter performs the atomic
`fetch_add` and builds a `ProgressPayload` with count i+1, the batch
total, its own path and its own result. This lists the payloads in the
order the counter assigns their counts. -/
def progressPayloads (env : Env) (o : ProcessOptions) (total : ℕ) (counter : ℕ) :
    List String → List ProgressPayload
  | [] => []
  | p :: rest =>
    let r := process_single_image env p o
    let current := counter + 1
    ⟨current, total, some p, some r⟩ :: progressPayloads env o total current rest

/-- The event trace observed by the reporting sink for one spawned batch
(lib.rs:888-917): the emitted progress events, followed by the single
`process-complete` signal. A worker's `app.emit` (lib.rs:901) is a
separate step from its `fetch_add` (lib.rs:898) and the two are not one
atomic section: between one worker's increment and its emit, other
workers may increment and emit, so the sink may observe the progress
events in any order `emitted` that is a permutation of the payloads of
`progressPayloads`. The terminal signal follows all progress events,
because the rayon `collect` barrier joins every worker — whose emit
precedes its return — before the `process-complete` emit (lib.rs:916). -/
def sinkTrace (emitted : List ProgressPayload) : List Event :=
  emitted.map Event.progress ++ [Event.complete]

/-- Embedding of the `process_images` command itself (lib.rs:880-921): it
spawns the batch (whose observable behavior is modelled by
`progressPayloads` and `sinkTrace`) onto a background thread and returns
`Ok(vec![])` immediately. -/
def process_images (env : Env) (paths : List String) (o : ProcessOptions) :
    Except String (List ProcessResult) :=
  Except.ok []

/-- The value carried by a `process-progress` event, if any. -/
def progressCompleted : Event → Option ℕ
  | Event.progress pl => some pl.completed
  | Event.complete => none

/-- The `completed` counts of a trace, in emission order. -/
def progressCompleteds (t : List Event) : List ℕ := t.filterMap progressCompleted

/-- Whether an event is the terminal completion signal. -/
def isCompleteEvent : Event → Bool
  | Event.complete => true
  | Event.progress _ => false

/-- The failure messages `process_single_image` can produce for input path
`p` — the failure taxonomy of the single-item pipeline (file-not-found,
directory-creation, decode, quality-configuration, quantization, remap,
encode, conversion, optimize and write errors). -/
def failureMessage (p m : String) : Prop :=
  m = p ++ (": ファイルが存在しません") ∨
  (∃ e, m = ("出力ディレクトリ作成エラー: ") ++ e) ∨
  (∃ e, m = p ++ (": 画像を開けません - ") ++ e) ∨
  (∃ e, m = ("クオリティ設定エラー: ") ++ e) ∨
  (∃ e, m = ("imagequant エラー: ") ++ e) ∨
  (∃ e, m = ("量子化エラー: ") ++ e) ∨
  (∃ e, m = ("リマップエラー: ") ++ e) ∨
  (∃ e, m = ("PNG エンコードエラー: ") ++ e) ∨
  (∃ e, m = ("PNG 変換エラー: ") ++ e) ∨
  (∃ e, m = ("oxipng エラー: ") ++ e) ∨
  (∃ e, m = ("ファイル書き込みエラー: ") ++ e)

/-- A failed result of the single-item pipeline: `success = false`, no
result bytes, empty output path, and a taxonomy failure message. -/
def FailShape (p : String) (r : ProcessResult) : Prop :=
  r.success = false ∧ r.result_size = 0 ∧ r.output_path = "" ∧ failureMessage p r.message

/-- A pipeline-stage outcome: either a success value or an early-return
failure result of `FailShape`. -/
def ExceptShape {β : Type} (p : String) (x : Except ProcessResult β) : Prop :=
  (∃ out, x = Except.ok out) ∨ (∃ r, x = Except.error r ∧ FailShape p r)

/-- A concrete environment in which every file is missing and every
capability fails: used to instantiate the theorems below. -/
def envMiss : Env :=
  { pathExists := fun _ => false
    metadataLen := fun _ => none
    createDirAll := fun _ => Except.error ("denied")
    writeFile := fun _ _ => Except.error ("denied")
    fileStem := fun _ => none
    fileName := fun _ => none
    parent := fun _ => none
    extension := fun _ => none
    openImage := fun _ => Except.error ("unreadable")
    dimensions := fun _ => (0, 0)
    resizeExact := fun i _ _ _ => i
    toRgba8 := fun i => i
    rgbaDimensions := fun _ => (0, 0)
    pixels := fun _ => []
    asRaw := fun _ => []
    writeToPng := fun _ => Except.error ("denied")
    saveImage := fun _ _ => Except.error ("denied")
    setQuality := fun _ _ => Except.error ("bad")
    newImage := fun _ _ _ _ => Except.error ("bad")
    quantize := fun _ => Except.error ("bad")
    setDithering := fun q _ => q
    remapped := fun _ _ => Except.error ("bad")
    paletteAdd := fun l _ => Except.ok l
    lodeEncode := fun _ _ _ _ => Except.error ("bad")
    oxipngFile := fun _ _ _ => Except.error ("bad")
    oxipngMem := fun _ _ => Except.error ("bad")
    webpLossless := fun b _ _ => b
    webpLossy := fun b _ _ _ => b
    fmtFloat := fun _ => ("0.0") }

/-- A concrete environment in which one input decodes and quantizes to a
one-color palette but `lodepng`'s `palette_add` reports an error, while
encoding and writing still succeed. -/
def envC4 : Env :=
  { envMiss with
    pathExists := fun _ => true
    metadataLen := fun _ => some 3
    openImage := fun _ => Except.ok 0
    pixels := fun _ => [⟨1, 2, 3, 4⟩]
    setQuality := fun _ _ => Except.ok ()
    newImage := fun _ _ _ _ => Except.ok 0
    quantize := fun _ => Except.ok 0
    remapped := fun _ _ => Except.ok ([⟨1, 2, 3, 4⟩], [0])
    paletteAdd := fun _ _ => Except.error ("palette full")
    lodeEncode := fun _ _ _ _ => Except.ok [9]
    writeFile := fun _ _ => Except.ok () }

/-- A concrete default `ProcessOptions` value (PNG output, no stages). -/
def optsPng : ProcessOptions :=
  { resize_enabled := false, width := none, height := none,
    maintain_aspect_ratio := false, quantize_enabled := false, quality := 80,
    optimize_enabled := false, output_dir := none,
    output_format := OutputFormat.png }

/-- WebP output at quality 100. -/
def optsWebp100 : ProcessOptions :=
  { optsPng with quality := 100, output_format := OutputFormat.webp }

/-- WebP output at quality 50. -/
def optsWebp50 : ProcessOptions :=
  { optsPng with quality := 50, output_format := OutputFormat.webp }

theorem fm_notfound (p : String) : failureMessage p (p ++ (": ファイルが存在しません")) :=
  Or.inl rfl

theorem fm_dircreate (p e : String) : failureMessage p (("出力ディレクトリ作成エラー: ") ++ e) :=
  Or.inr (Or.inl ⟨e, rfl⟩)

theorem fm_open (p e : String) : failureMessage p (p ++ (": 画像を開けません - ") ++ e) :=
  Or.inr (Or.inr (Or.inl ⟨e, rfl⟩))

theorem fm_quality (p e : String) : failureMessage p (("クオリティ設定エラー: ") ++ e) :=
  Or.inr (Or.inr (Or.inr (Or.inl ⟨e, rfl⟩)))

theorem fm_imagequant (p e : String) : failureMessage p (("imagequant エラー: ") ++ e) :=
  Or.inr (Or.inr (Or.inr (Or.inr (Or.inl ⟨e, rfl⟩))))

theorem fm_quantize (p e : String) : failureMessage p (("量子化エラー: ") ++ e) :=
  Or.inr (Or.inr (Or.inr (Or.inr (Or.inr (Or.inl ⟨e, rfl⟩)))))

theorem fm_remap (p e : String) : failureMessage p (("リマップエラー: ") ++ e) :=
  Or.inr (Or.inr (Or.inr (Or.inr (Or.inr (Or.inr (Or.inl ⟨e, rfl⟩))))))

theorem fm_encode (p e : String) : failureMessage p (("PNG エンコードエラー: ") ++ e) :=
  Or.inr (Or.inr (Or.inr (Or.inr (Or.inr (Or.inr (Or.inr (Or.inl ⟨e, rfl⟩)))))))

theorem fm_convert (p e : String) : failureMessage p (("PNG 変換エラー: ") ++ e) :=
  Or.inr (Or.inr (Or.inr (Or.inr (Or.inr (Or.inr (Or.inr (Or.inr (Or.inl ⟨e, rfl⟩))))))))

theorem fm_oxipng (p e : String) : failureMessage p (("oxipng エラー: ") ++ e) :=
  Or.inr (Or.inr (Or.inr (Or.inr (Or.inr (Or.inr (Or.inr (Or.inr (Or.inr (Or.inl ⟨e, rfl⟩)))))))))

theorem fm_write (p e : String) : failureMessage p (("ファイル書き込みエラー: ") ++ e) :=
  Or.inr (Or.inr (Or.inr (Or.inr (Or.inr (Or.inr (Or.inr (Or.inr (Or.inr (Or.inr ⟨e, rfl⟩)))))))))

/-- Claim C10: every public batch command declared as returning `Result`
with a `String` error always returns the `Ok` variant, for every
environment, input list and options value; the `Err` channel is never
used. In particular `get_image_info` returns `Ok` (here of the empty
list) even when every path is missing, and `process_images` always
returns `Ok` with an empty vector. -/
theorem C10_commands_always_ok :
    (∀ (env : Env) (paths : List String), ∃ v, get_image_info env paths = Except.ok v) ∧
    (∀ (env : Env) (paths : List String), ∃ v, optimize_images env paths = Except.ok v) ∧
    (∀ (env : Env) (paths : List String) (o : ResizeOptions),
      ∃ v, resize_images env paths o = Except.ok v) ∧
    (∀ (env : Env) (paths : List String) (o : QuantOptions),
      ∃ v, quantize_images env paths o = Except.ok v) ∧
    (∀ (env : Env) (paths : List String) (o : ProcessOptions),
      process_images env paths o = Except.ok []) ∧
    get_image_info envMiss [("a"), ("b")] = Except.ok [] :=
  ⟨fun env paths => ⟨_, rfl⟩, fun env paths => ⟨_, rfl⟩, fun env paths o => ⟨_, rfl⟩,
   fun env paths o => ⟨_, rfl⟩, fun env paths o => rfl, rfl⟩

/-- Claim C6: the quantization quality band passed to the quantizer's
`set_quality` is exactly `[max(quality-10,0), quality]` for every `u8`
quality; e.g. quality 5 gives the band `[0,5]` and quality 50 gives
`[40,50]`. `setQualityArgs` is the pair both call sites — the quantize
stage of `process_single_image` (`pngData`) and `quantizeOne` of
`quantize_images` — pass to `Env.setQuality`. -/
theorem C6_quant_band :
    (∀ q : ℕ, q ≤ 255 → setQualityArgs q = (max (q - 10) 0, q)) ∧
    setQualityArgs 5 = (0, 5) ∧ setQualityArgs 50 = (40, 50) := by
  refine ⟨fun q hq => ?_, by decide, by decide⟩
  simp only [setQualityArgs, Prod.mk.injEq]
  constructor <;> omega

theorem C6_quant_band_witness : setQualityArgs 50 = (max (50 - 10) 0, 50) :=
  C6_quant_band.1 50 (by decide)

/-- Claim C8: the byte-reduction percentage is computed by the guarded
expression `reductionF` (lib.rs:856-860); it is never NaN, it is exactly
`0` when the original size is `0` (no division by zero), and for a
positive original size it is exactly `(1 - result/original) * 100`. -/
theorem C8_reduction_guard :
    (∀ o r : ℕ, reductionF o r ≠ F64.nan) ∧
    (∀ r : ℕ, reductionF 0 r = F64.fin 0) ∧
    (∀ o r : ℕ, 0 < o → reductionF o r = F64.fin ((1 - (r : ℚ) / (o : ℚ)) * 100)) := by
  refine ⟨fun o r => ?_, fun r => rfl, fun o r ho => ?_⟩
  · by_cases ho : 0 < o
    · have hne : ((o : ℕ) : ℚ) ≠ 0 := Nat.cast_ne_zero.mpr (by omega)
      simp only [reductionF, if_pos ho, qf, F64.div, if_neg hne, F64.sub, F64.mul]
      exact fun hcon => F64.noConfusion hcon
    · simp only [reductionF, if_neg ho]
      exact fun hcon => F64.noConfusion hcon
  · have hne : ((o : ℕ) : ℚ) ≠ 0 := Nat.cast_ne_zero.mpr (by omega)
    simp only [reductionF, if_pos ho, qf, F64.div, if_neg hne, F64.sub, F64.mul]

theorem C8_reduction_guard_witness :
    reductionF 4 1 = F64.fin ((1 - ((1 : ℕ) : ℚ) / ((4 : ℕ) : ℚ)) * 100) ∧
    reductionF 0 7 = F64.fin 0 :=
  ⟨C8_reduction_guard.2.2 4 1 (by decide), C8_reduction_guard.2.1 7⟩

/-- Claim C4 (code bug): in `quantize_images`, when `palette_add` reports
an error the `continue` binds to the inner `for color in &palette` loop,
not to the per-path loop; the failure result is pushed and the item keeps
being processed, pushing a second result for the same single input path.
In the concrete environment `envC4` (one input, one palette color whose
`palette_add` fails, encode and write succeed), one input path yields two
`ProcessResult`s, contradicting one-result-per-item. -/
theorem C4_duplicate_results :
    (quantizeOne envC4 { quality := 50 } ("img.png")).length = 2 ∧
    quantize_images envC4 [("img.png")] { quality := 50 } =
      Except.ok (quantizeOne envC4 { quality := 50 } ("img.png")) := by
  constructor
  · rfl
  · simp [quantize_images, quantizeImagesGo]

/-- Claim C3: `calculate_new_dimensions` follows the first-matching-rule
policy table — both targets with `lock=false` give exactly the targets;
both targets with `lock=true` scale both axes by the smaller of the two
target/original ratios, rounding each axis independently; a single target
scales uniformly by its own ratio and rounds the other axis; no targets
leave the dimensions unchanged. Rounding is round half away from zero
(witnessed on the ties 1/2 and 5/2 and on -1/2), and no clamping to a
minimum of 1 pixel is performed: a target of 0 propagates a 0. -/
theorem C3_dimension_policy :
    (∀ ow oh w h : ℕ, calculate_new_dimensions ow oh (some w) (some h) false = (w, h)) ∧
    (∀ ow oh w h : ℕ, calculate_new_dimensions ow oh (some w) (some h) true =
      (roundToU32 (F64.mul (qf ow) (F64.rmin (F64.div (qf w) (qf ow)) (F64.div (qf h) (qf oh)))),
       roundToU32 (F64.mul (qf oh) (F64.rmin (F64.div (qf w) (qf ow)) (F64.div (qf h) (qf oh)))))) ∧
    (∀ (ow oh w : ℕ) (la : Bool), calculate_new_dimensions ow oh (some w) none la =
      (w, roundToU32 (F64.mul (qf oh) (F64.div (qf w) (qf ow))))) ∧
    (∀ (ow oh h : ℕ) (la : Bool), calculate_new_dimensions ow oh none (some h) la =
      (roundToU32 (F64.mul (qf ow) (F64.div (qf h) (qf oh))), h)) ∧
    (∀ (ow oh : ℕ) (la : Bool), calculate_new_dimensions ow oh none none la = (ow, oh)) ∧
    roundAway (1/2) = 1 ∧ roundAway (5/2) = 3 ∧ roundAway (-(1/2)) = -1 ∧
    calculate_new_dimensions 10 20 (some 0) none true = (0, 0) ∧
    calculate_new_dimensions 7 9 (some 0) (some 0) false = (0, 0) := by
  refine ⟨fun ow oh w h => rfl, fun ow oh w h => rfl,
    fun ow oh w la => by cases la <;> rfl,
    fun ow oh h la => by cases la <;> rfl,
    fun ow oh la => by cases la <;> rfl,
    by norm_num [roundAway], by norm_num [roundAway], by norm_num [roundAway], ?_, rfl⟩
  norm_num [calculate_new_dimensions, qf, F64.div, F64.mul, roundToU32, roundAway, U32MAX]

/-- Claim C5: in the WebP branch of the single-item pipeline, for every
environment, image and option record with WebP output, quality at least
100 selects lossless encoding (regardless of every other option flag) and
quality below 100 selects lossy encoding at exactly that quality. -/
theorem C5_webp_lossless_cutoff (env : Env) (o : ProcessOptions) (os : ℕ)
    (img : Image) (steps : List String) (hfmt : o.output_format = OutputFormat.webp) :
    (100 ≤ o.quality →
      formatBranch env o os img steps =
        Except.ok (env.webpLossless (env.asRaw (env.toRgba8 img))
            (env.rgbaDimensions (env.toRgba8 img)).1 (env.rgbaDimensions (env.toRgba8 img)).2,
          ("webp"), steps ++ [("WebP: ロスレス")])) ∧
    (o.quality < 100 →
      formatBranch env o os img steps =
        Except.ok (env.webpLossy (env.asRaw (env.toRgba8 img))
            (env.rgbaDimensions (env.toRgba8 img)).1 (env.rgbaDimensions (env.toRgba8 img)).2
            o.quality,
          ("webp"), steps ++ [("WebP: クオリティ ") ++ toString o.quality])) := by
  constructor
  · intro hq
    simp only [formatBranch, hfmt, if_pos hq]
  · intro hq
    simp only [formatBranch, hfmt, if_neg (by omega : ¬ 100 ≤ o.quality)]

theorem C5_webp_lossless_cutoff_witness :
    formatBranch envMiss optsWebp100 0 (0 : Image) [] =
      Except.ok (envMiss.webpLossless (envMiss.asRaw (envMiss.toRgba8 0))
          (envMiss.rgbaDimensions (envMiss.toRgba8 0)).1
          (envMiss.rgbaDimensions (envMiss.toRgba8 0)).2,
        ("webp"), [] ++ [("WebP: ロスレス")]) :=
  (C5_webp_lossless_cutoff envMiss optsWebp100 0 0 [] rfl).1 (by decide)

theorem progressPayloads_counts (env : Env) (o : ProcessOptions) (total : ℕ) :
    ∀ (l : List String) (c : ℕ),
      (progressPayloads env o total c l).map ProgressPayload.completed =
        List.range' (c + 1) l.length := by
  intro l
  induction l with
  | nil => intro c; rfl
  | cons p rest ih =>
    intro c
    simp only [progressPayloads, List.map_cons, List.length_cons, List.range'_succ]
    exact congrArg (List.cons (c + 1)) (ih (c + 1))

theorem filterMap_progress (l : List ProgressPayload) :
    List.filterMap progressCompleted (l.map Event.progress) =
      l.map ProgressPayload.completed := by
  induction l with
  | nil => rfl
  | cons pl rest ih =>
    simp only [List.map_cons, List.filterMap_cons, progressCompleted]
    exact congrArg (List.cons _) ih

theorem filter_complete_map_progress (l : List ProgressPayload) :
    (l.map Event.progress).filter isCompleteEvent = [] := by
  induction l with
  | nil => rfl
  | cons pl rest ih =>
    simp only [List.map_cons, List.filter_cons, isCompleteEvent]
    simpa using ih

/-- Claim C2, counterexample: the worker's `app.emit` (lib.rs:901) is not
atomic with its `fetch_add` (lib.rs:898), so the sink can observe the
progress events out of count order. With two inputs whose counter
increments happen in input order (counts 1 then 2) and the two emits
observed in reversed order — a behavior the program permits, since the
second worker may increment and emit between the first worker's increment
and its emit — the observed `completed` values are `[2, 1]`, not the
strictly increasing `[1, 2]` the claim requires of the sink's
observation. -/
theorem C2_emit_order_counterexample :
    (List.reverse (progressPayloads envMiss optsPng 2 0 [("a"), ("b")])).Perm
      (progressPayloads envMiss optsPng 2 0 [("a"), ("b")]) ∧
    progressCompleteds (sinkTrace
      (List.reverse (progressPayloads envMiss optsPng 2 0 [("a"), ("b")]))) = [2, 1] ∧
    [2, 1] ≠ List.range' 1 2 :=
  ⟨List.reverse_perm _, rfl, by decide⟩

/-- Claim C2 (corrected): for every batch dispatched by `process_images`,
every completion order `sched` (a permutation of the input paths) and
every emission order `emitted` the unsynchronized emits permit (any
permutation of the increment-order payloads), the atomic increment
assigns the `completed` values exactly `1, 2, ..., N` — strictly
increasing and gap-free in increment order, each value produced exactly
once — the sink observes exactly `N` progress events whose `completed`
values are a permutation of `1..N` (though not necessarily in increasing
order, see `C2_emit_order_counterexample`), and exactly one terminal
completion signal, emitted only after all `N` progress events. -/
theorem C2_progress_invariant (env : Env) (o : ProcessOptions)
    (paths sched : List String) (emitted : List ProgressPayload)
    (hsched : sched.Perm paths)
    (hemit : emitted.Perm (progressPayloads env o paths.length 0 sched)) :
    (progressPayloads env o paths.length 0 sched).map ProgressPayload.completed =
      List.range' 1 paths.length ∧
    (progressCompleteds (sinkTrace emitted)).Perm (List.range' 1 paths.length) ∧
    (progressCompleteds (sinkTrace emitted)).length = paths.length ∧
    (sinkTrace emitted).filter isCompleteEvent = [Event.complete] ∧
    (sinkTrace emitted).getLast? = some Event.complete := by
  have h1 : (progressPayloads env o paths.length 0 sched).map ProgressPayload.completed =
      List.range' 1 paths.length := by
    have h0 := progressPayloads_counts env o paths.length sched 0
    rw [hsched.length_eq] at h0
    simpa using h0
  have h2 : progressCompleteds (sinkTrace emitted) =
      emitted.map ProgressPayload.completed := by
    simp only [sinkTrace, progressCompleteds, List.filterMap_append, filterMap_progress]
    simp [progressCompleted]
  have h3 : (progressCompleteds (sinkTrace emitted)).Perm (List.range' 1 paths.length) := by
    rw [h2, ← h1]
    exact hemit.map ProgressPayload.completed
  refine ⟨h1, h3, ?_, ?_, ?_⟩
  · rw [h3.length_eq, List.length_range']
  · simp only [sinkTrace, List.filter_append, filter_complete_map_progress]
    rfl
  · exact List.getLast?_concat _

theorem C2_progress_invariant_witness :
    (progressCompleteds (sinkTrace
        (progressPayloads envMiss optsPng 2 0 [("b"), ("a")]))).Perm
      (List.range' 1 2) :=
  (C2_progress_invariant envMiss optsPng [("a"), ("b")] [("b"), ("a")]
    (progressPayloads envMiss optsPng 2 0 [("b"), ("a")])
    (by decide) (List.Perm.refl _)).2.1

theorem orFail_shape {α β : Type} (p : String) (x : Except String α)
    (mk : String → ProcessResult) (k : α → Except ProcessResult β)
    (hmk : ∀ e, FailShape p (mk e)) (hk : ∀ a, ExceptShape p (k a)) :
    ExceptShape p (orFail x mk k) := by
  cases x with
  | error e => exact Or.inr ⟨mk e, rfl, hmk e⟩
  | ok a => exact hk a

theorem failRes_shape (p : String) (os : ℕ) (tag : String)
    (h : ∀ e, failureMessage p (tag ++ e)) : ∀ e, FailShape p (failRes os tag e) :=
  fun e => ⟨rfl, rfl, rfl, h e⟩

theorem pngData_shape (p : String) (env : Env) (o : ProcessOptions) (os : ℕ)
    (img : Image) (steps : List String) : ExceptShape p (pngData env o os img steps) := by
  simp only [pngData]
  split
  · exact orFail_shape p _ _ _ (failRes_shape p os _ (fm_quality p)) fun u =>
      orFail_shape p _ _ _ (failRes_shape p os _ (fm_imagequant p)) fun liq =>
        orFail_shape p _ _ _ (failRes_shape p os _ (fm_quantize p)) fun q0 =>
          orFail_shape p _ _ _ (failRes_shape p os _ (fm_remap p)) fun pr =>
            orFail_shape p _ _ _ (failRes_shape p os _ (fm_encode p)) fun data =>
              Or.inl ⟨_, rfl⟩
  · exact orFail_shape p _ _ _ (failRes_shape p os _ (fm_convert p)) fun data =>
      Or.inl ⟨_, rfl⟩

theorem formatBranch_webp_eq (env : Env) (o : ProcessOptions) (os : ℕ) (img : Image)
    (steps : List String) (hof : o.output_format = OutputFormat.webp) :
    formatBranch env o os img steps =
      if 100 ≤ o.quality then
        Except.ok (env.webpLossless (env.asRaw (env.toRgba8 img))
            (env.rgbaDimensions (env.toRgba8 img)).1 (env.rgbaDimensions (env.toRgba8 img)).2,
          ("webp"), steps ++ [("WebP: ロスレス")])
      else
        Except.ok (env.webpLossy (env.asRaw (env.toRgba8 img))
            (env.rgbaDimensions (env.toRgba8 img)).1 (env.rgbaDimensions (env.toRgba8 img)).2
            o.quality,
          ("webp"), steps ++ [("WebP: クオリティ ") ++ toString o.quality]) := by
  simp only [formatBranch, hof]

theorem formatBranch_shape (p : String) (env : Env) (o : ProcessOptions) (os : ℕ)
    (img : Image) (steps : List String) :
    ExceptShape p (formatBranch env o os img steps) := by
  cases hof : o.output_format with
  | png =>
    simp only [formatBranch, hof]
    rcases pngData_shape p env o os img steps with ⟨out, hpd⟩ | ⟨r, hpd, hr⟩
    · rw [hpd]
      cases hopt : o.optimize_enabled with
      | true =>
        exact orFail_shape p _ _ _ (failRes_shape p os _ (fm_oxipng p)) fun optimized =>
          Or.inl ⟨_, rfl⟩
      | false => exact Or.inl ⟨_, rfl⟩
    · rw [hpd]
      exact Or.inr ⟨r, rfl, hr⟩
  | webp =>
    rw [formatBranch_webp_eq env o os img steps hof]
    split
    · exact Or.inl ⟨_, rfl⟩
    · exact Or.inl ⟨_, rfl⟩

theorem afterFormat_cases (p : String) (env : Env) (os : ℕ) (stem out_parent : String)
    (fb : Except ProcessResult (List ℕ × String × List String))
    (hfb : ExceptShape p fb) :
    ((afterFormat env os stem out_parent fb).success = true) ∨
    ((afterFormat env os stem out_parent fb).success = false ∧
      (afterFormat env os stem out_parent fb).result_size = 0 ∧
      (afterFormat env os stem out_parent fb).output_path = "" ∧
      failureMessage p (afterFormat env os stem out_parent fb).message) := by
  rcases hfb with ⟨out, hfb⟩ | ⟨r, hfb, hfs⟩
  · subst hfb
    simp only [afterFormat]
    cases hw : env.writeFile (joinPath out_parent (stem ++ ("_processed.") ++ out.2.1)) out.1 with
    | error e => exact Or.inr ⟨rfl, rfl, rfl, fm_write p e⟩
    | ok u => exact Or.inl rfl
  · subst hfb
    obtain ⟨h1, h2, h3, h4⟩ := hfs
    exact Or.inr ⟨h1, h2, h3, h4⟩

theorem afterDir_cases (env : Env) (p : String) (o : ProcessOptions) (os : ℕ)
    (stem out_parent : String) :
    ((afterDir env p o os stem out_parent).success = true) ∨
    ((afterDir env p o os stem out_parent).success = false ∧
      (afterDir env p o os stem out_parent).result_size = 0 ∧
      (afterDir env p o os stem out_parent).output_path = "" ∧
      failureMessage p (afterDir env p o os stem out_parent).message) := by
  simp only [afterDir]
  cases hoi : env.openImage p with
  | error e => exact Or.inr ⟨rfl, rfl, rfl, fm_open p e⟩
  | ok img0 =>
    exact afterFormat_cases p env os stem out_parent _
      (formatBranch_shape p env o os (resizeStage env o img0).1 (resizeStage env o img0).2)

theorem process_single_cases (env : Env) (p : String) (o : ProcessOptions) :
    ((process_single_image env p o).success = true) ∨
    ((process_single_image env p o).success = false ∧
      (process_single_image env p o).result_size = 0 ∧
      (process_single_image env p o).output_path = "" ∧
      failureMessage p (process_single_image env p o).message) := by
  simp only [process_single_image]
  split
  · exact Or.inr ⟨rfl, rfl, rfl, fm_notfound p⟩
  · split
    · split
      · exact afterDir_cases env p o _ _ _
      · split
        · exact Or.inr ⟨rfl, rfl, rfl, fm_dircreate p _⟩
        · exact afterDir_cases env p o _ _ _
    · exact afterDir_cases env p o _ _ _

/-- Claim C1: the single-item pipeline executor is a total function to
`ProcessResult` — in the embedding it is a plain function on every
environment, path and options value — and every internal failure (missing
file, directory-creation, decode, quality-configuration, quantization,
remap, encode, conversion, optimize or write error) yields a result with
`success = false` whose message is the corresponding descriptive failure
message of the taxonomy, affecting only that item. -/
theorem C1_executor_total (env : Env) (p : String) (o : ProcessOptions) :
    ((process_single_image env p o).success = true) ∨
    ((process_single_image env p o).success = false ∧
      failureMessage p (process_single_image env p o).message) := by
  rcases process_single_cases env p o with h | ⟨h1, h2, h3, h4⟩
  · exact Or.inl h
  · exact Or.inr ⟨h1, h4⟩

theorem orPush_all {α : Type} (P : ProcessResult → Prop) (x : Except String α)
    (mk : String → ProcessResult) (k : α → List ProcessResult)
    (hmk : ∀ e, P (mk e)) (hk : ∀ a, ∀ r ∈ k a, P r) :
    ∀ r ∈ orPush x mk k, P r := by
  cases x with
  | error e =>
    intro r hr
    rcases List.mem_singleton.mp hr with h
    subst h
    exact hmk e
  | ok a => exact hk a

theorem paletteStepPng_fail (env : Env) (os : ℕ) (st1 : LodeEncoder) (c : RGBA)
    (r : ProcessResult) :
    (paletteStepPng env os st1 c).2 = some r →
    ∃ e, r = failRes os ("パレット追加エラー: ") e := by
  simp only [paletteStepPng]
  cases h2 : env.paletteAdd st1.pngPalette c with
  | error e =>
    intro h
    exact ⟨e, (Option.some.inj h).symm⟩
  | ok png' =>
    intro h
    exact Option.noConfusion h

theorem paletteStep_fail (env : Env) (os : ℕ) (st : LodeEncoder) (c : RGBA)
    (r : ProcessResult) :
    (paletteStep env os st c).2 = some r →
    ∃ e, r = failRes os ("パレット追加エラー: ") e := by
  simp only [paletteStep]
  cases h1 : env.paletteAdd st.rawPalette c with
  | error e =>
    intro h
    exact ⟨e, (Option.some.inj h).symm⟩
  | ok raw' => exact paletteStepPng_fail env os _ c r

theorem paletteLoopQ_fails (env : Env) (os : ℕ) :
    ∀ (cs : List RGBA) (st : LodeEncoder) (r : ProcessResult),
      r ∈ (paletteLoopQ env os st cs).2 →
      r.success = false ∧ r.output_path = "" ∧ r.result_size = 0 := by
  intro cs
  induction cs with
  | nil =>
    intro st r hr
    exact absurd hr (List.not_mem_nil r)
  | cons c rest ih =>
    intro st r hr
    have hr' : r ∈ (paletteStep env os st c).2.toList ++
        (paletteLoopQ env os (paletteStep env os st c).1 rest).2 := hr
    rcases List.mem_append.mp hr' with h | h
    · cases hsp : (paletteStep env os st c).2 with
      | none =>
        rw [hsp] at h
        exact absurd h (List.not_mem_nil r)
      | some f =>
        rw [hsp] at h
        rcases List.mem_singleton.mp h with hrf
        subst hrf
        obtain ⟨e, he⟩ := paletteStep_fail env os st c r hsp
        subst he
        exact ⟨rfl, rfl, rfl⟩
    · exact ih _ r h

theorem quantizeTail_fails (env : Env) (o : QuantOptions) (p : String) (os : ℕ)
    (wh : ℕ × ℕ) (pr : List RGBA × List ℕ) :
    ∀ r ∈ quantizeTail env o p os wh pr, r.success = false →
      r.output_path = "" ∧ r.result_size = 0 := by
  intro r hr
  simp only [quantizeTail] at hr
  rcases List.mem_append.mp hr with h | h
  · intro hfalse
    exact ⟨(paletteLoopQ_fails env os pr.1 lodeInit r h).2.1,
      (paletteLoopQ_fails env os pr.1 lodeInit r h).2.2⟩
  · refine orPush_all (fun r => r.success = false → r.output_path = "" ∧ r.result_size = 0)
      _ _ _ (fun e hfalse => ⟨rfl, rfl⟩) (fun png_data => ?_) r h
    refine orPush_all (fun r => r.success = false → r.output_path = "" ∧ r.result_size = 0)
      _ _ _ (fun e hfalse => ⟨rfl, rfl⟩) (fun u r' hr' => ?_)
    rcases List.mem_singleton.mp hr' with h'
    subst h'
    intro hfalse
    exact Bool.noConfusion hfalse

theorem quantizeOne_fails (env : Env) (o : QuantOptions) (p : String) :
    ∀ r ∈ quantizeOne env o p, r.success = false →
      r.output_path = "" ∧ r.result_size = 0 := by
  intro r hr
  simp only [quantizeOne] at hr
  revert hr
  split
  · intro hr
    rcases List.mem_singleton.mp hr with h
    subst h
    intro hfalse
    exact ⟨rfl, rfl⟩
  · refine orPush_all (fun r => r.success = false → r.output_path = "" ∧ r.result_size = 0)
      _ _ _ (fun e hfalse => ⟨rfl, rfl⟩) (fun img => ?_) r
    refine orPush_all _ _ _ _ (fun e hfalse => ⟨rfl, rfl⟩) (fun u => ?_)
    refine orPush_all _ _ _ _ (fun e hfalse => ⟨rfl, rfl⟩) (fun liq => ?_)
    refine orPush_all _ _ _ _ (fun e hfalse => ⟨rfl, rfl⟩) (fun q0 => ?_)
    refine orPush_all _ _ _ _ (fun e hfalse => ⟨rfl, rfl⟩) (fun pr => ?_)
    exact quantizeTail_fails env o p _ _ pr

theorem finishOx_fail (env : Env) (p : String) (os : ℕ) (outP : String)
    (x : Except String (ℕ × ℕ)) :
    (finishOx env p os outP x).success = false →
    (finishOx env p os outP x).output_path = "" ∧ (finishOx env p os outP x).result_size = 0 := by
  cases x with
  | ok pair =>
    intro hfalse
    exact Bool.noConfusion hfalse
  | error e =>
    intro hfalse
    exact ⟨rfl, rfl⟩

theorem optimizeOne_fails (env : Env) (p : String) :
    (optimizeOne env p).success = false →
    (optimizeOne env p).output_path = "" ∧ (optimizeOne env p).result_size = 0 := by
  simp only [optimizeOne]
  split
  · intro hfalse
    exact ⟨rfl, rfl⟩
  · split
    · exact finishOx_fail env p _ _ _
    · cases hc : convert_to_png env p with
      | error e =>
        intro hfalse
        exact ⟨rfl, rfl⟩
      | ok png_data => exact finishOx_fail env p _ _ _

theorem resizeAfterOpen_fails (env : Env) (o : ResizeOptions) (p : String) (img : Image) :
    (resizeAfterOpen env o p img).success = false →
    (resizeAfterOpen env o p img).output_path = "" ∧
      (resizeAfterOpen env o p img).result_size = 0 := by
  simp only [resizeAfterOpen]
  cases hs : env.saveImage
      (env.resizeExact img
        (calculate_new_dimensions (env.dimensions img).1 (env.dimensions img).2
          o.width o.height o.maintain_aspect_ratio).1
        (calculate_new_dimensions (env.dimensions img).1 (env.dimensions img).2
          o.width o.height o.maintain_aspect_ratio).2
        FilterType.lanczos3)
      (joinPath ((env.parent p).getD (".")) (((env.fileStem p).getD ("output")) ++
        ("_resized.png"))) with
  | ok u =>
    intro hfalse
    exact Bool.noConfusion hfalse
  | error e =>
    intro hfalse
    exact ⟨rfl, rfl⟩

theorem resizeOne_fails (env : Env) (o : ResizeOptions) (p : String) :
    (resizeOne env o p).success = false →
    (resizeOne env o p).output_path = "" ∧ (resizeOne env o p).result_size = 0 := by
  simp only [resizeOne]
  split
  · intro hfalse
    exact ⟨rfl, rfl⟩
  · cases ho : env.openImage p with
    | error e =>
      intro hfalse
      exact ⟨rfl, rfl⟩
    | ok img => exact resizeAfterOpen_fails env o p img

theorem optimizeImagesGo_fails (env : Env) :
    ∀ (paths : List String), ∀ r ∈ optimizeImagesGo env paths,
      r.success = false → r.output_path = "" ∧ r.result_size = 0 := by
  intro paths
  induction paths with
  | nil => intro r hr; exact absurd hr (List.not_mem_nil r)
  | cons p rest ih =>
    intro r hr
    rcases List.mem_cons.mp hr with h | h
    · subst h
      exact optimizeOne_fails env p
    · exact ih r h

theorem resizeImagesGo_fails (env : Env) (o : ResizeOptions) :
    ∀ (paths : List String), ∀ r ∈ resizeImagesGo env o paths,
      r.success = false → r.output_path = "" ∧ r.result_size = 0 := by
  intro paths
  induction paths with
  | nil => intro r hr; exact absurd hr (List.not_mem_nil r)
  | cons p rest ih =>
    intro r hr
    rcases List.mem_cons.mp hr with h | h
    · subst h
      exact resizeOne_fails env o p
    · exact ih r h

theorem quantizeImagesGo_fails (env : Env) (o : QuantOptions) :
    ∀ (paths : List String), ∀ r ∈ quantizeImagesGo env o paths,
      r.success = false → r.output_path = "" ∧ r.result_size = 0 := by
  intro paths
  induction paths with
  | nil => intro r hr; exact absurd hr (List.not_mem_nil r)
  | cons p rest ih =>
    intro r hr
    rcases List.mem_append.mp hr with h | h
    · exact quantizeOne_fails env o p r h
    · exact ih r h

/-- Claim C7: a missing input path makes `process_single_image` return
immediately the failure result with `original_size = 0` (and empty output
path, zero result size, the not-found message); and in every operation —
the single-item pipeline, `optimize_images`, `resize_images` and
`quantize_images` — every failed `ProcessResult` has an empty
`output_path` and `result_size = 0`. -/
theorem C7_missing_file_and_failed_result_shape :
    (∀ (env : Env) (p : String) (o : ProcessOptions), env.pathExists p = false →
      process_single_image env p o =
        ⟨false, 0, 0, "", p ++ (": ファイルが存在しません")⟩) ∧
    (∀ (env : Env) (p : String) (o : ProcessOptions),
      (process_single_image env p o).success = false →
      (process_single_image env p o).output_path = "" ∧
        (process_single_image env p o).result_size = 0) ∧
    (∀ (env : Env) (paths : List String), ∀ r ∈ optimizeImagesGo env paths,
      r.success = false → r.output_path = "" ∧ r.result_size = 0) ∧
    (∀ (env : Env) (o : ResizeOptions) (paths : List String),
      ∀ r ∈ resizeImagesGo env o paths,
      r.success = false → r.output_path = "" ∧ r.result_size = 0) ∧
    (∀ (env : Env) (o : QuantOptions) (paths : List String),
      ∀ r ∈ quantizeImagesGo env o paths,
      r.success = false → r.output_path = "" ∧ r.result_size = 0) := by
  refine ⟨fun env p o h => ?_, fun env p o => ?_,
    fun env paths => optimizeImagesGo_fails env paths,
    fun env o paths => resizeImagesGo_fails env o paths,
    fun env o paths => quantizeImagesGo_fails env o paths⟩
  · simp [process_single_image, h]
  · rcases process_single_cases env p o with h | ⟨h1, h2, h3, h4⟩
    · intro hfalse
      rw [h] at hfalse
      exact Bool.noConfusion hfalse
    · intro hfalse
      exact ⟨h3, h2⟩

theorem C7_missing_file_and_failed_result_shape_witness :
    process_single_image envMiss ("x") optsPng =
      ⟨false, 0, 0, "", ("x") ++ (": ファイルが存在しません")⟩ :=
  C7_missing_file_and_failed_result_shape.1 envMiss ("x") optsPng rfl

theorem roundAway_natCast (n : ℕ) : roundAway ((n : ℚ)) = (n : ℤ) := by
  unfold roundAway
  rw [if_neg (not_lt.mpr (by positivity))]
  rw [Int.floor_eq_iff]
  constructor
  · push_cast
    linarith
  · push_cast
    linarith

theorem roundAway_le_natCast (q : ℚ) (k : ℕ) (h : q ≤ (k : ℚ)) :
    roundAway q ≤ (k : ℤ) := by
  unfold roundAway
  split
  · have h1 : (0 : ℚ) ≤ -q + 1/2 := by linarith
    have h2 : (0 : ℤ) ≤ Int.floor (-q + 1/2) := by
      rw [Int.le_floor]
      push_cast
      linarith
    omega
  · have h2 : Int.floor (q + 1/2) ≤ Int.floor ((k : ℚ) + 1/2) := by
      apply Int.floor_le_floor
      linarith
    have h3 : Int.floor ((k : ℚ) + 1/2) = (k : ℤ) := by
      rw [Int.floor_eq_iff]
      constructor
      · push_cast
        linarith
      · push_cast
        linarith
    omega

theorem roundToU32_le (x : F64) : roundToU32 x ≤ U32MAX := by
  cases x with
  | nan => exact Nat.zero_le _
  | inf => exact Nat.le_refl _
  | ninf => exact Nat.zero_le _
  | fin q =>
    simp only [roundToU32]
    split
    · exact Nat.zero_le _
    · exact Nat.min_le_right _ _

theorem roundToU32_natCast (n : ℕ) (h : n ≤ U32MAX) :
    roundToU32 (F64.fin ((n : ℚ))) = n := by
  simp only [roundToU32, roundAway_natCast]
  rw [if_neg (by omega)]
  simp only [Int.toNat_natCast]
  omega

theorem roundToU32_le_of_le (q : ℚ) (k : ℕ) (h : q ≤ (k : ℚ)) :
    roundToU32 (F64.fin q) ≤ k := by
  simp only [roundToU32]
  split
  · exact Nat.zero_le _
  · have h2 : roundAway q ≤ (k : ℤ) := roundAway_le_natCast q k h
    have h3 : (roundAway q).toNat ≤ k := Int.toNat_le.mpr h2
    exact le_trans (Nat.min_le_left _ _) h3

theorem rmin_fin_fin (a b : ℚ) : F64.rmin (F64.fin a) (F64.fin b) = F64.fin (min a b) := by
  simp only [F64.rmin, min_def]
  split <;> simp

theorem div_fin_ne (a b : ℚ) (hb : b ≠ 0) :
    F64.div (F64.fin a) (F64.fin b) = F64.fin (a / b) := by
  simp [F64.div, hb]

theorem div_qf_zero (k : ℕ) :
    F64.div (qf k) (qf 0) = if k = 0 then F64.nan else F64.inf := by
  by_cases hk : k = 0
  · subst hk
    simp [qf, F64.div]
  · have hk' : (0 : ℚ) < (k : ℚ) := by positivity
    simp [qf, F64.div, hk, Nat.cast_eq_zero, hk']

theorem mul_qf_zero_inf : F64.mul (qf 0) F64.inf = F64.nan := by
  simp [qf, F64.mul]

theorem mul_fin_one (n : ℕ) : F64.mul (qf n) (F64.fin 1) = F64.fin ((n : ℚ)) := by
  simp [qf, F64.mul]

theorem single_reapply (w Y : ℕ) (hY : Y ≤ U32MAX) (h0 : w = 0 → Y = 0) :
    roundToU32 (F64.mul (qf Y) (F64.div (qf w) (qf w))) = Y := by
  by_cases hw : w = 0
  · have hY0 := h0 hw
    subst hw
    subst hY0
    have hd : F64.div (qf 0) (qf 0) = F64.nan := by
      rw [div_qf_zero]
      rfl
    rw [hd]
    rfl
  · have hw' : ((w : ℕ) : ℚ) ≠ 0 := Nat.cast_ne_zero.mpr hw
    have hd : F64.div (qf w) (qf w) = F64.fin 1 := by
      simp only [qf]
      rw [div_fin_ne _ _ hw', div_self hw']
    rw [hd, mul_fin_one]
    exact roundToU32_natCast Y hY

theorem reapply_eq (U V u v : ℕ) (hu : u ≤ U32MAX) (hv : v ≤ U32MAX)
    (hcond : (u = U ∧ 0 < u ∧ v ≤ V) ∨ (v = V ∧ 0 < v ∧ u ≤ U) ∨ (u = 0 ∧ v = 0)) :
    calculate_new_dimensions u v (some U) (some V) true = (u, v) := by
  show (roundToU32 (F64.mul (qf u) (F64.rmin (F64.div (qf U) (qf u)) (F64.div (qf V) (qf v)))),
      roundToU32 (F64.mul (qf v) (F64.rmin (F64.div (qf U) (qf u)) (F64.div (qf V) (qf v))))) =
    (u, v)
  rcases hcond with ⟨hU, hupos, hvV⟩ | ⟨hV, hvpos, huU⟩ | ⟨hu0, hv0⟩
  · subst hU
    have hu' : ((u : ℕ) : ℚ) ≠ 0 := Nat.cast_ne_zero.mpr (by omega)
    have hr1 : F64.div (qf u) (qf u) = F64.fin 1 := by
      simp only [qf]
      rw [div_fin_ne _ _ hu', div_self hu']
    have hr : F64.rmin (F64.div (qf u) (qf u)) (F64.div (qf V) (qf v)) = F64.fin 1 := by
      rw [hr1]
      by_cases hv0 : v = 0
      · subst hv0
        rw [div_qf_zero]
        by_cases hV0 : V = 0
        · rw [if_pos hV0]
          rfl
        · rw [if_neg hV0]
          rfl
      · have hv' : ((v : ℕ) : ℚ) ≠ 0 := Nat.cast_ne_zero.mpr hv0
        simp only [qf]
        rw [div_fin_ne _ _ hv', rmin_fin_fin]
        have hmin : min (1 : ℚ) ((V : ℚ) / (v : ℚ)) = 1 := by
          apply min_eq_left
          rw [one_le_div (by positivity)]
          exact_mod_cast hvV
        rw [hmin]
    rw [hr, mul_fin_one, mul_fin_one, roundToU32_natCast u hu, roundToU32_natCast v hv]
  · subst hV
    have hv' : ((v : ℕ) : ℚ) ≠ 0 := Nat.cast_ne_zero.mpr (by omega)
    have hr2 : F64.div (qf v) (qf v) = F64.fin 1 := by
      simp only [qf]
      rw [div_fin_ne _ _ hv', div_self hv']
    have hr : F64.rmin (F64.div (qf U) (qf u)) (F64.div (qf v) (qf v)) = F64.fin 1 := by
      rw [hr2]
      by_cases hu0 : u = 0
      · subst hu0
        rw [div_qf_zero]
        by_cases hU0 : U = 0
        · rw [if_pos hU0]
          rfl
        · rw [if_neg hU0]
          rfl
      · have hu' : ((u : ℕ) : ℚ) ≠ 0 := Nat.cast_ne_zero.mpr hu0
        simp only [qf]
        rw [div_fin_ne _ _ hu', rmin_fin_fin]
        have hmin : min ((U : ℚ) / (u : ℚ)) (1 : ℚ) = 1 := by
          apply min_eq_right
          rw [one_le_div (by positivity)]
          exact_mod_cast huU
        rw [hmin]
    rw [hr, mul_fin_one, mul_fin_one, roundToU32_natCast u hu, roundToU32_natCast v hv]
  · subst hu0
    subst hv0
    rw [div_qf_zero, div_qf_zero]
    by_cases hU0 : U = 0 <;> by_cases hV0 : V = 0
    · rw [if_pos hU0, if_pos hV0]
      rfl
    · rw [if_pos hU0, if_neg hV0]
      rw [show F64.rmin F64.nan F64.inf = F64.inf from rfl, mul_qf_zero_inf]
      rfl
    · rw [if_neg hU0, if_pos hV0]
      rw [show F64.rmin F64.inf F64.nan = F64.inf from rfl, mul_qf_zero_inf]
      rfl
    · rw [if_neg hU0, if_neg hV0]
      rw [show F64.rmin F64.inf F64.inf = F64.inf from rfl, mul_qf_zero_inf]
      rfl

theorem singleY_zero (ow oh : ℕ) :
    roundToU32 (F64.mul (qf oh) (F64.div (qf 0) (qf ow))) = 0 := by
  by_cases how : ow = 0
  · subst how
    rw [div_qf_zero, if_pos rfl]
    rfl
  · have how' : ((ow : ℕ) : ℚ) ≠ 0 := Nat.cast_ne_zero.mpr how
    simp only [qf]
    rw [div_fin_ne _ _ how']
    rw [show ((0 : ℕ) : ℚ) / (ow : ℚ) = ((0 : ℕ) : ℚ) from by simp]
    simp only [F64.mul, mul_zero, Nat.cast_zero]
    simpa using roundToU32_natCast 0 (by norm_num [U32MAX])

theorem calc_wonly (ow oh w : ℕ) (la : Bool) :
    calculate_new_dimensions ow oh (some w) none la =
      (w, roundToU32 (F64.mul (qf oh) (F64.div (qf w) (qf ow)))) := by
  cases la <;> rfl

theorem calc_honly (ow oh h : ℕ) (la : Bool) :
    calculate_new_dimensions ow oh none (some h) la =
      (roundToU32 (F64.mul (qf ow) (F64.div (qf h) (qf oh))), h) := by
  cases la <;> rfl

theorem calc_both_lock (ow oh w h : ℕ) :
    calculate_new_dimensions ow oh (some w) (some h) true =
      (roundToU32 (F64.mul (qf ow) (F64.rmin (F64.div (qf w) (qf ow)) (F64.div (qf h) (qf oh)))),
       roundToU32 (F64.mul (qf oh) (F64.rmin (F64.div (qf w) (qf ow)) (F64.div (qf h) (qf oh))))) :=
  rfl

/-- Claim C9: `calculate_new_dimensions` is idempotent — applying it to
its own output with the same targets and the same aspect-lock flag
returns that output unchanged, for all original dimensions and all target
combinations in `u32` range. -/
theorem C9_calculate_idempotent (ow oh : ℕ) (tw th : Option ℕ) (la : Bool)
    (hw : ∀ w, tw = some w → w ≤ U32MAX) (hh : ∀ h, th = some h → h ≤ U32MAX) :
    calculate_new_dimensions (calculate_new_dimensions ow oh tw th la).1
      (calculate_new_dimensions ow oh tw th la).2 tw th la =
      calculate_new_dimensions ow oh tw th la := by
  cases tw with
  | none =>
    cases th with
    | none => cases la <;> rfl
    | some h =>
      have hhU := hh h rfl
      rw [calc_honly, calc_honly, Prod.mk.injEq]
      refine ⟨single_reapply h _ (roundToU32_le _) (fun h0 => ?_), rfl⟩
      subst h0
      exact singleY_zero oh ow
  | some w =>
    have hwU := hw w rfl
    cases th with
    | none =>
      rw [calc_wonly, calc_wonly, Prod.mk.injEq]
      refine ⟨rfl, single_reapply w _ (roundToU32_le _) (fun h0 => ?_)⟩
      subst h0
      exact singleY_zero ow oh
    | some h =>
      have hhU := hh h rfl
      cases la with
      | false => rfl
      | true =>
        rw [calc_both_lock ow oh w h]
        by_cases how : ow = 0 <;> by_cases hoh : oh = 0
        · -- ow = 0, oh = 0
          subst how
          subst hoh
          have hX : roundToU32 (F64.mul (qf 0)
              (F64.rmin (F64.div (qf w) (qf 0)) (F64.div (qf h) (qf 0)))) = 0 := by
            rw [div_qf_zero, div_qf_zero]
            by_cases hw0 : w = 0 <;> by_cases hh0 : h = 0
            · rw [if_pos hw0, if_pos hh0]
              rfl
            · rw [if_pos hw0, if_neg hh0,
                show F64.rmin F64.nan F64.inf = F64.inf from rfl, mul_qf_zero_inf]
              rfl
            · rw [if_neg hw0, if_pos hh0,
                show F64.rmin F64.inf F64.nan = F64.inf from rfl, mul_qf_zero_inf]
              rfl
            · rw [if_neg hw0, if_neg hh0,
                show F64.rmin F64.inf F64.inf = F64.inf from rfl, mul_qf_zero_inf]
              rfl
          rw [hX]
          exact reapply_eq w h 0 0 (Nat.zero_le _) (Nat.zero_le _)
            (Or.inr (Or.inr ⟨rfl, rfl⟩))
        · -- ow = 0, oh ≠ 0
          subst how
          have hoh' : ((oh : ℕ) : ℚ) ≠ 0 := Nat.cast_ne_zero.mpr hoh
          have hr : F64.rmin (F64.div (qf w) (qf 0)) (F64.div (qf h) (qf oh)) =
              F64.fin ((h : ℚ) / (oh : ℚ)) := by
            rw [div_qf_zero, show F64.div (qf h) (qf oh) = F64.fin ((h : ℚ) / (oh : ℚ)) from
              by simp only [qf]; exact div_fin_ne _ _ hoh']
            by_cases hw0 : w = 0
            · rw [if_pos hw0]
              rfl
            · rw [if_neg hw0]
              rfl
          rw [hr]
          have hX : roundToU32 (F64.mul (qf 0) (F64.fin ((h : ℚ) / (oh : ℚ)))) = 0 := by
            simp only [qf, F64.mul, Nat.cast_zero, zero_mul]
            simpa using roundToU32_natCast 0 (by norm_num [U32MAX])
          have hY : roundToU32 (F64.mul (qf oh) (F64.fin ((h : ℚ) / (oh : ℚ)))) = h := by
            simp only [qf, F64.mul]
            rw [show (oh : ℚ) * ((h : ℚ) / (oh : ℚ)) = (h : ℚ) from by field_simp]
            exact roundToU32_natCast h hhU
          rw [hX, hY]
          by_cases hh0 : h = 0
          · subst hh0
            exact reapply_eq w 0 0 0 (Nat.zero_le _) (Nat.zero_le _)
              (Or.inr (Or.inr ⟨rfl, rfl⟩))
          · exact reapply_eq w h 0 h (Nat.zero_le _) hhU
              (Or.inr (Or.inl ⟨rfl, by omega, Nat.zero_le _⟩))
        · -- ow ≠ 0, oh = 0
          subst hoh
          have how' : ((ow : ℕ) : ℚ) ≠ 0 := Nat.cast_ne_zero.mpr how
          have hr : F64.rmin (F64.div (qf w) (qf ow)) (F64.div (qf h) (qf 0)) =
              F64.fin ((w : ℚ) / (ow : ℚ)) := by
            rw [div_qf_zero, show F64.div (qf w) (qf ow) = F64.fin ((w : ℚ) / (ow : ℚ)) from
              by simp only [qf]; exact div_fin_ne _ _ how']
            by_cases hh0 : h = 0
            · rw [if_pos hh0]
              rfl
            · rw [if_neg hh0]
              rfl
          rw [hr]
          have hX : roundToU32 (F64.mul (qf ow) (F64.fin ((w : ℚ) / (ow : ℚ)))) = w := by
            simp only [qf, F64.mul]
            rw [show (ow : ℚ) * ((w : ℚ) / (ow : ℚ)) = (w : ℚ) from by field_simp]
            exact roundToU32_natCast w hwU
          have hY : roundToU32 (F64.mul (qf 0) (F64.fin ((w : ℚ) / (ow : ℚ)))) = 0 := by
            simp only [qf, F64.mul, Nat.cast_zero, zero_mul]
            simpa using roundToU32_natCast 0 (by norm_num [U32MAX])
          rw [hX, hY]
          by_cases hw0 : w = 0
          · subst hw0
            exact reapply_eq 0 h 0 0 (Nat.zero_le _) (Nat.zero_le _)
              (Or.inr (Or.inr ⟨rfl, rfl⟩))
          · exact reapply_eq w h w 0 hwU (Nat.zero_le _)
              (Or.inl ⟨rfl, by omega, Nat.zero_le _⟩)
        · -- ow ≠ 0, oh ≠ 0
          have how' : ((ow : ℕ) : ℚ) ≠ 0 := Nat.cast_ne_zero.mpr how
          have hoh' : ((oh : ℕ) : ℚ) ≠ 0 := Nat.cast_ne_zero.mpr hoh
          rw [show F64.div (qf w) (qf ow) = F64.fin ((w : ℚ) / (ow : ℚ)) from
            by simp only [qf]; exact div_fin_ne _ _ how']
          rw [show F64.div (qf h) (qf oh) = F64.fin ((h : ℚ) / (oh : ℚ)) from
            by simp only [qf]; exact div_fin_ne _ _ hoh']
          rw [rmin_fin_fin]
          rcases le_total ((w : ℚ) / (ow : ℚ)) ((h : ℚ) / (oh : ℚ)) with hab | hba
          · rw [min_eq_left hab]
            have hX : roundToU32 (F64.mul (qf ow) (F64.fin ((w : ℚ) / (ow : ℚ)))) = w := by
              simp only [qf, F64.mul]
              rw [show (ow : ℚ) * ((w : ℚ) / (ow : ℚ)) = (w : ℚ) from by field_simp]
              exact roundToU32_natCast w hwU
            rw [hX]
            have hYle : roundToU32 (F64.mul (qf oh) (F64.fin ((w : ℚ) / (ow : ℚ)))) ≤ h := by
              simp only [qf, F64.mul]
              apply roundToU32_le_of_le
              have h1 : (oh : ℚ) * ((w : ℚ) / (ow : ℚ)) ≤ (oh : ℚ) * ((h : ℚ) / (oh : ℚ)) :=
                mul_le_mul_of_nonneg_left hab (by positivity)
              have h2 : (oh : ℚ) * ((h : ℚ) / (oh : ℚ)) = (h : ℚ) := by field_simp
              linarith
            by_cases hw0 : w = 0
            · subst hw0
              have hY0 : roundToU32 (F64.mul (qf oh)
                  (F64.fin (((0 : ℕ) : ℚ) / (ow : ℚ)))) = 0 := by
                rw [show ((0 : ℕ) : ℚ) / (ow : ℚ) = ((0 : ℕ) : ℚ) from by simp]
                simp only [qf, F64.mul, Nat.cast_zero, mul_zero]
                simpa using roundToU32_natCast 0 (by norm_num [U32MAX])
              rw [hY0]
              exact reapply_eq 0 h 0 0 (Nat.zero_le _) (Nat.zero_le _)
                (Or.inr (Or.inr ⟨rfl, rfl⟩))
            · exact reapply_eq w h w
                (roundToU32 (F64.mul (qf oh) (F64.fin ((w : ℚ) / (ow : ℚ))))) hwU
                (roundToU32_le _) (Or.inl ⟨rfl, by omega, hYle⟩)
          · rw [min_eq_right hba]
            have hY : roundToU32 (F64.mul (qf oh) (F64.fin ((h : ℚ) / (oh : ℚ)))) = h := by
              simp only [qf, F64.mul]
              rw [show (oh : ℚ) * ((h : ℚ) / (oh : ℚ)) = (h : ℚ) from by field_simp]
              exact roundToU32_natCast h hhU
            rw [hY]
            have hXle : roundToU32 (F64.mul (qf ow) (F64.fin ((h : ℚ) / (oh : ℚ)))) ≤ w := by
              simp only [qf, F64.mul]
              apply roundToU32_le_of_le
              have h1 : (ow : ℚ) * ((h : ℚ) / (oh : ℚ)) ≤ (ow : ℚ) * ((w : ℚ) / (ow : ℚ)) :=
                mul_le_mul_of_nonneg_left hba (by positivity)
              have h2 : (ow : ℚ) * ((w : ℚ) / (ow : ℚ)) = (w : ℚ) := by field_simp
              linarith
            by_cases hh0 : h = 0
            · subst hh0
              have hX0 : roundToU32 (F64.mul (qf ow)
                  (F64.fin (((0 : ℕ) : ℚ) / (oh : ℚ)))) = 0 := by
                rw [show ((0 : ℕ) : ℚ) / (oh : ℚ) = ((0 : ℕ) : ℚ) from by simp]
                simp only [qf, F64.mul, Nat.cast_zero, mul_zero]
                simpa using roundToU32_natCast 0 (by norm_num [U32MAX])
              rw [hX0]
              exact reapply_eq w 0 0 0 (Nat.zero_le _) (Nat.zero_le _)
                (Or.inr (Or.inr ⟨rfl, rfl⟩))
            · exact reapply_eq w h
                (roundToU32 (F64.mul (qf ow) (F64.fin ((h : ℚ) / (oh : ℚ))))) h
                (roundToU32_le _) hhU (Or.inr (Or.inl ⟨rfl, by omega, hXle⟩))

theorem C9_calculate_idempotent_witness :
    calculate_new_dimensions (calculate_new_dimensions 1000 1 (some 100) (some 1) true).1
      (calculate_new_dimensions 1000 1 (some 100) (some 1) true).2
      (some 100) (some 1) true =
      calculate_new_dimensions 1000 1 (some 100) (some 1) true :=
  C9_calculate_idempotent 1000 1 (some 100) (some 1) true
    (fun w hww => by cases Option.some.inj hww; decide)
    (fun h hhh => by cases Option.some.inj hhh; decide)
